import Mathlib

/-!
Verification development for the `proc` package: a race-tolerant interface to
the Linux process table.  The per-process record decoders, the enumerator, the
process tree builder, the signal layer and the statistics helper live in
repository modules that are only declared and tested here, so they are
modelled from the specification; the GPG agent helper (`proc.gpg`) and the
environment-variable scraper (`proc.notify`) are embedded from their sources.
-/

namespace ProcSpec

/-! ### Attribute decoder: the comm field of the stat record (spec-modelled) -/

/-- Everything after the first occurrence of `c` in the list, or `none` when
`c` does not occur. -/
def afterFirst (c : Char) : List Char → Option (List Char)
  | [] => none
  | x :: xs => if x = c then some xs else afterFirst c xs

/-- Everything before the last occurrence of `c` in the list, or `none` when
`c` does not occur. -/
def beforeLast (c : Char) (l : List Char) : Option (List Char) :=
  (afterFirst c l.reverse).map List.reverse

/-- Modelled from the spec: the decoder of the command name field of the
primary per-process stat record (`proc.core`, absent from the sources).  The
command name is delimited by the *outermost* matching parenthesis pair: the
text between the first `'('` and the last `')'` of the record, so that command
names containing spaces or parentheses survive decoding intact. -/
def decodeComm (line : List Char) : Option (List Char) :=
  match afterFirst '(' line with
  | none => none
  | some rest => beforeLast ')' rest

/-- A well-formed primary stat record: the pid field, a space, the command
name wrapped in parentheses, a space, and the remaining fixed-position
fields. -/
def mkStatLine (pidField comm rest : List Char) : List Char :=
  pidField ++ (' ' :: '(' :: comm) ++ (')' :: ' ' :: rest)

/-! ### Attribute decoder: the command line record (spec-modelled) -/

/-- The NUL byte separating command line tokens. -/
def nulChar : Char := Char.ofNat 0

/-- Modelled from the spec: the raw `/proc/[pid]/cmdline` layout — every
token is followed by a terminating NUL byte; an empty command line is an
empty record. -/
def encodeCmdline : List (List Char) → List Char
  | [] => []
  | t :: ts => t ++ nulChar :: encodeCmdline ts

/-- Modelled from the spec: the command line decoder of `proc.core` (absent
from the sources).  It splits the raw record on NUL bytes, drops exactly one
trailing empty token produced by the terminating NUL, and keeps every interior
empty token. -/
def decodeCmdline (raw : List Char) : List (List Char) :=
  let fields := raw.splitOn nulChar
  if fields.getLast? = some [] then fields.dropLast else fields

/-! ### Process handles and the enumerator (spec-modelled) -/

/-- The error taxonomy of the core layer: the process vanished before its
primary record could be read, the primary record was read but is malformed,
or an unsupported object type was supplied to the enumeration function. -/
inductive ProcError where
  | notFound
  | decodeError
  | typeError
deriving DecidableEq, Repr

/-- A decoded process handle: its numeric identity and the decoded command
name snapshot. -/
structure Process where
  pid : Nat
  comm : List Char
deriving DecidableEq, Repr

/-- The kernel-exposed process table at the instant of one read: for each pid
either the raw primary stat record or `none` when the process is gone. -/
def ProcTable := Nat → Option (List Char)

/-- A directory-style view of the process table, keyed by handle path
(for the `self` pseudo-identity). -/
def ProcDir := String → Option (List Char)

/-- The pid field of a raw stat record: its leading decimal digits. -/
def parseStatPid (raw : List Char) : Nat :=
  (raw.takeWhile (·.isDigit)).foldl (fun a c => a * 10 + (c.toNat - 48)) 0

/-- Modelled from the spec: decoding a primary stat record that was
successfully read (`proc.core`, absent from the sources); a record whose
command name cannot be isolated is malformed. -/
def from_stat_record (raw : List Char) : Except ProcError Process :=
  match decodeComm raw with
  | none => .error .decodeError
  | some comm => .ok ⟨parseStatPid raw, comm⟩

/-- Modelled from the spec: `Process.from_pid` — an explicit single-entity
lookup by exact pid, surfacing `NotFoundError` when the process is gone. -/
def from_pid (table : ProcTable) (pid : Nat) : Except ProcError Process :=
  match table pid with
  | none => .error .notFound
  | some raw => from_stat_record raw

/-- Modelled from the spec: `Process.from_path` — an explicit single-entity
lookup by exact handle path, surfacing `NotFoundError` when the process is
gone. -/
def from_path (dir : ProcDir) (path : String) : Except ProcError Process :=
  match dir path with
  | none => .error .notFound
  | some raw => from_stat_record raw

/-- Modelled from the spec: the enumeration pass of `proc.core` (absent from
the sources).  For each listed pid it attempts to construct a handle; a pid
that vanished before its primary record could be read is silently skipped,
while a malformed record is surfaced. -/
def find_processes (table : ProcTable) : List Nat → Except ProcError (List Process)
  | [] => .ok []
  | p :: ps =>
    match from_pid table p with
    | .ok proc => (find_processes table ps).map (proc :: ·)
    | .error .notFound => find_processes table ps
    | .error .decodeError => .error .decodeError
    | .error .typeError => .error .typeError

/-! ### The polymorphic object type filter of the enumeration function -/

/-- The object types a caller can ask the enumeration function to construct:
the process entity type itself, its tree node subtype, or an unrelated type
(as passed in the argument validation test). -/
inductive ObjType where
  | process
  | processNode
  | plainObject
deriving DecidableEq, Repr

/-- Whether an object type is a supported process-entity type (a subtype of
the process entity type). -/
def is_supported_obj_type : ObjType → Bool
  | .process => true
  | .processNode => true
  | .plainObject => false

/-- The state of the generator returned by the enumeration function before
any element has been requested: the requested object type and the remaining
scan, captured unexamined. -/
structure ProcessGenerator where
  obj_type : ObjType
  table : ProcTable
  pids : List Nat

/-- Modelled from the spec and from `tests.py`: *calling* the enumeration
function with an object type argument only creates the generator; no argument
validation happens at call time. -/
def find_processes_call (t : ObjType) (table : ProcTable) (pids : List Nat) :
    Except ProcError ProcessGenerator :=
  .ok ⟨t, table, pids⟩

/-- One step of the generator body for a supported object type: produce the
next constructible handle, silently skipping vanished pids. -/
def generator_step (t : ObjType) (table : ProcTable) :
    List Nat → Except ProcError (Option (Process × ProcessGenerator))
  | [] => .ok none
  | p :: ps =>
    match from_pid table p with
    | .ok proc => .ok (some (proc, ⟨t, table, ps⟩))
    | .error .notFound => generator_step t table ps
    | .error .decodeError => .error .decodeError
    | .error .typeError => .error .typeError

/-- Modelled from the spec and from `tests.py`: requesting the first value
from the generator validates the object type argument, failing with a
type-mismatch error for unsupported types, and otherwise produces the next
handle. -/
def generator_next (g : ProcessGenerator) :
    Except ProcError (Option (Process × ProcessGenerator)) :=
  if is_supported_obj_type g.obj_type then generator_step g.obj_type g.table g.pids
  else .error .typeError

/-! ### The process tree builder (spec-modelled) -/

/-- The identity fields of one enumerated handle that the tree builder
consumes. -/
structure PNode where
  pid : Nat
  ppid : Nat
deriving DecidableEq, Repr

/-- The forest produced by the tree builder: the root nodes together with the
child collection of each pid, both in enumeration order. -/
structure ProcessForest where
  roots : List PNode
  childrenOf : Nat → List PNode

/-- Modelled from the spec: the second pass of the tree builder (`proc.tree`,
absent from the sources).  Each node whose ppid appears in the pid mapping is
appended to that parent's child collection; every other node becomes a
root. -/
def linkNodes (pids : List Nat) : List PNode → ProcessForest
  | [] => ⟨[], fun _ => []⟩
  | h :: t =>
    if h.ppid ∈ pids then
      ⟨(linkNodes pids t).roots,
       fun p =>
         if p = h.ppid then h :: (linkNodes pids t).childrenOf p
         else (linkNodes pids t).childrenOf p⟩
    else
      ⟨h :: (linkNodes pids t).roots, (linkNodes pids t).childrenOf⟩

/-- Modelled from the spec: `get_process_tree` — first pass collects the pid
mapping, second pass links children to parents. -/
def get_process_tree (hs : List PNode) : ProcessForest :=
  linkNodes (hs.map (·.pid)) hs

/-! ### Signal operations (spec-modelled) -/

/-- The outcome of the OS-level kill call for a pid and signal number: the
signal was delivered, the process no longer exists, or the call failed for
another reason such as insufficient privilege. -/
inductive KillOutcome where
  | delivered
  | noSuchProcess
  | otherFailure
deriving DecidableEq, Repr

/-- The error surfaced when a control signal could not be sent for a reason
other than the process being gone. -/
inductive SigErr where
  | signalError
deriving DecidableEq, Repr

/-- The kernel's response to kill calls, as a function of pid and signal
number. -/
def Kernel := Nat → Nat → KillOutcome

def SIGKILL : Nat := 9
def SIGTERM : Nat := 15
def SIGSTOP : Nat := 19
def SIGCONT : Nat := 18

/-- Modelled from the spec: `Process.send_signal` (`proc.core`, absent from
the sources).  Failure because the process already exited is a benign no-op;
any other failure is surfaced as a signal error. -/
def send_signal (k : Kernel) (pid sig : Nat) : Except SigErr Unit :=
  match k pid sig with
  | .delivered => .ok ()
  | .noSuchProcess => .ok ()
  | .otherFailure => .error .signalError

/-- Suspend the process (SIGSTOP). -/
def sigStop (k : Kernel) (pid : Nat) : Except SigErr Unit := send_signal k pid SIGSTOP

/-- Resume the process (SIGCONT). -/
def sigCont (k : Kernel) (pid : Nat) : Except SigErr Unit := send_signal k pid SIGCONT

/-- Request termination (SIGTERM). -/
def sigTerminate (k : Kernel) (pid : Nat) : Except SigErr Unit := send_signal k pid SIGTERM

/-- Force kill (SIGKILL). -/
def sigKill (k : Kernel) (pid : Nat) : Except SigErr Unit := send_signal k pid SIGKILL

/-! ### StatsList aggregation (spec-modelled) -/

/-- The defined error raised when an aggregate of an empty sample set is
requested. -/
inductive StatsErr where
  | valueError
deriving DecidableEq, Repr

/-- Modelled from the spec: `StatsList.min` (`proc.apache`, absent from the
sources). -/
def statsMin (xs : List ℚ) : Except StatsErr ℚ :=
  match xs with
  | [] => .error .valueError
  | x :: rest => .ok (rest.foldl min x)

/-- Modelled from the spec: `StatsList.max`. -/
def statsMax (xs : List ℚ) : Except StatsErr ℚ :=
  match xs with
  | [] => .error .valueError
  | x :: rest => .ok (rest.foldl max x)

/-- Modelled from the spec: `StatsList.average` — the arithmetic mean,
failing with a defined error on an empty sample set. -/
def statsAverage (xs : List ℚ) : Except StatsErr ℚ :=
  match xs with
  | [] => .error .valueError
  | _ :: _ => .ok (xs.sum / (xs.length : ℚ))

/-- Modelled from the spec: `StatsList.median` — the middle element of the
sorted samples for an odd count, the mean of the two middle elements for an
even count, failing with a defined error on an empty sample set. -/
def statsMedian (xs : List ℚ) : Except StatsErr ℚ :=
  match xs with
  | [] => .error .valueError
  | _ :: _ =>
    let sorted := List.insertionSort (· ≤ ·) xs
    let n := xs.length
    if n % 2 = 1 then .ok (sorted.getD (n / 2) 0)
    else .ok ((sorted.getD (n / 2 - 1) 0 + sorted.getD (n / 2) 0) / 2)

/-! ### `proc.gpg`: agent launch wait loop and socket validation -/

/-- The timeout for a newly launched GPG agent daemon to come online
(`proc.gpg.LAUNCH_TIMEOUT`). -/
def LAUNCH_TIMEOUT : Nat := 30

/-- One observation per iteration of the wait loop in `start_gpg_agent`: the
timer's elapsed seconds at the `while` check and the value
`find_gpg_agent_info()` would return during that iteration. -/
def AgentTrace := List (Nat × Option String)

/-- The wait loop of `start_gpg_agent`: while the elapsed time is below
`LAUNCH_TIMEOUT`, poll `find_gpg_agent_info()` and return its value as soon
as it is available; once the bound is reached the loop falls through and the
function returns nothing. -/
def agent_wait_loop : AgentTrace → Option String
  | [] => none
  | (elapsed, found) :: rest =>
    if elapsed < LAUNCH_TIMEOUT then
      match found with
      | some info => some info
      | none => agent_wait_loop rest
    else none

/-- The function `proc.gpg.start_gpg_agent`: spawn the daemon, then wait for
`find_gpg_agent_info()` to produce a value.  The `timeout` parameter is
accepted but the loop bound in the source is the module constant
`LAUNCH_TIMEOUT`. -/
def start_gpg_agent (timeout : Nat) (trace : AgentTrace) : Option String :=
  agent_wait_loop trace

/-- The mode bits mask selecting the file type (`stat.S_IFMT`). -/
def S_IFMT : Nat := 0o170000

/-- The file type bits of a UNIX socket (`stat.S_IFSOCK`). -/
def S_IFSOCK : Nat := 0o140000

/-- The predicate `stat.S_ISSOCK`: whether a mode's file type bits denote a socket. -/
def S_ISSOCK (mode : Nat) : Bool := Nat.land mode S_IFMT == S_IFSOCK

/-- The metadata returned by a successful stat call. -/
structure FileMetadata where
  st_mode : Nat
deriving DecidableEq, Repr

/-- The reason a stat call raised. -/
inductive OsException where
  | noSuchFile
  | permissionDenied
  | otherException
deriving DecidableEq, Repr

/-- The filesystem state visible to `validate_unix_socket`: the outcome of
`os.stat` and of `os.access(.., W_OK)` per pathname. -/
structure OsEnv where
  stat : String → Except OsException FileMetadata
  access_w : String → Bool

/-- The function `proc.gpg.validate_unix_socket`: stat the pathname inside a
catch-everything block; when the stat succeeds and the mode denotes a socket,
return writability; in every other case, including any raised exception,
return `False`. -/
def validate_unix_socket (os : OsEnv) (pathname : String) : Bool :=
  match os.stat pathname with
  | .error _ => false
  | .ok metadata =>
    if S_ISSOCK metadata.st_mode then os.access_w pathname else false

/-! ### `proc.notify`: environment variable scraping -/

/-- Assignment into a Python dict rendered as an association list: an
existing key is updated in place, a new key is appended. -/
def dict_set : List (String × String) → String → String → List (String × String)
  | [], k, v => [(k, v)]
  | (k', v') :: rest, k, v =>
    if k' == k then (k, v) :: rest else (k', v') :: dict_set rest k v

/-- The body of the inner loop of `find_environment_variables`: record the
variable when its name was requested and its value is nonempty. -/
def env_step (names : List String) (m : List (String × String)) (kv : String × String) :
    List (String × String) :=
  if names.contains kv.1 && kv.2 != "" then dict_set m kv.1 kv.2 else m

/-- The function `proc.notify.find_environment_variables`: scan every enumerated process's
environment in order, keeping the requested variables that have a nonempty
value; later processes overwrite earlier ones. -/
def find_environment_variables (names : List String)
    (procs : List (List (String × String))) : List (String × String) :=
  procs.foldl (fun m environ => environ.foldl (env_step names) m) []

/-- Whether an environment entry is recorded by the scan: its name was
requested and its value is nonempty. -/
def env_good (names : List String) (kv : String × String) : Bool :=
  names.contains kv.1 && kv.2 != ""

/-- Whether an environment entry is a recorded occurrence of the variable
`k`. -/
def env_match (names : List String) (k : String) (kv : String × String) : Bool :=
  kv.1 == k && env_good names kv

/-- The value the scan is expected to retain for a requested name: the value
of the last recorded occurrence of that name over all enumerated processes in
order.  Stated from the claim's words, to be compared with the scan
itself. -/
def last_retained (names : List String) (procs : List (List (String × String)))
    (k : String) : Option String :=
  (procs.flatten.reverse.find? (env_match names k)).map (·.2)

/-! ## Supporting lemmas -/

theorem afterFirst_append_not_mem (c : Char) (xs ys : List Char) (h : c ∉ xs) :
    afterFirst c (xs ++ c :: ys) = some ys := by
  induction xs with
  | nil => simp [afterFirst]
  | cons x xs ih =>
    have hx : x ≠ c := fun hc => h (hc ▸ List.mem_cons_self x xs)
    have hxs : c ∉ xs := fun hc => h (List.mem_cons_of_mem x hc)
    simp [afterFirst, hx, Ne.symm hx, ih hxs]

theorem splitOn_encodeCmdline (toks : List (List Char))
    (h : ∀ t ∈ toks, nulChar ∉ t) :
    (encodeCmdline toks).splitOn nulChar = toks ++ [[]] := by
  induction toks with
  | nil => simp [encodeCmdline, List.splitOn_nil]
  | cons t ts ih =>
    have ht : ∀ x ∈ t, ¬((x == nulChar) = true) := by
      intro x hx hbeq
      exact (h t (List.mem_cons_self t ts)) (beq_iff_eq.mp hbeq ▸ hx)
    have hts : ∀ u ∈ ts, nulChar ∉ u := fun u hu => h u (List.mem_cons_of_mem t hu)
    show ((t ++ nulChar :: encodeCmdline ts).splitOn nulChar) = (t :: ts) ++ [[]]
    unfold List.splitOn
    rw [List.splitOnP_first _ t ht nulChar (by simp) (encodeCmdline ts)]
    have := ih hts
    unfold List.splitOn at this
    rw [this]
    simp

/-! ## C2: the comm field decoder round-trips on parenthesised names -/

/-- C2: decoding a well-formed primary stat record recovers the command name
exactly, even when the name contains parentheses or spaces, because the
decoder isolates the text between the outermost matching parenthesis pair:
for every pid field without `'('` and field tail without `')'`, the
decode-then-read round-trip is the identity on the command name. -/
theorem c2_comm_decode_round_trip (pidField comm rest : List Char)
    (h1 : '(' ∉ pidField) (h2 : ')' ∉ rest) :
    decodeComm (mkStatLine pidField comm rest) = some comm := by
  have e1 : mkStatLine pidField comm rest =
      (pidField ++ [' ']) ++ '(' :: (comm ++ ')' :: ' ' :: rest) := by
    simp [mkStatLine]
  have hx : ('(' : Char) ∉ pidField ++ [' '] := by
    intro hmem
    rcases List.mem_append.mp hmem with hm | hm
    · exact h1 hm
    · simp at hm
  have e2 : afterFirst '(' (mkStatLine pidField comm rest) =
      some (comm ++ ')' :: ' ' :: rest) := by
    rw [e1]; exact afterFirst_append_not_mem _ _ _ hx
  have e3 : (comm ++ ')' :: ' ' :: rest).reverse =
      (rest.reverse ++ [' ']) ++ ')' :: comm.reverse := by
    simp
  have hy : (')' : Char) ∉ rest.reverse ++ [' '] := by
    intro hmem
    rcases List.mem_append.mp hmem with hm | hm
    · exact h2 (List.mem_reverse.mp hm)
    · simp at hm
  have e4 : beforeLast ')' (comm ++ ')' :: ' ' :: rest) = some comm := by
    unfold beforeLast
    rw [e3, afterFirst_append_not_mem _ _ _ hy]
    simp
  unfold decodeComm
  rw [e2]
  exact e4

/-- Witness for C2 at a command name containing parentheses and spaces. -/
theorem c2_witness :
    ('(' ∉ ("1234".toList)) ∧ (')' ∉ ("R 1 77 4".toList)) ∧
      decodeComm (mkStatLine "1234".toList "my (weird) name".toList "R 1 77 4".toList) =
        some "my (weird) name".toList :=
  ⟨by decide, by decide,
    c2_comm_decode_round_trip "1234".toList "my (weird) name".toList "R 1 77 4".toList
      (by decide) (by decide)⟩

/-! ## C3: the command line decoder -/

/-- C3: decoding a raw command line record splits it on NUL bytes, drops
exactly the one trailing empty token produced by the terminating NUL, and
preserves every interior empty token: decoding the encoding of any NUL-free
token sequence — empty arguments included — recovers it exactly. -/
theorem c3_cmdline_decode (toks : List (List Char))
    (h : toks.all (fun t => !(t.contains nulChar)) = true) :
    decodeCmdline (encodeCmdline toks) = toks := by
  have h' : ∀ t ∈ toks, nulChar ∉ t := by
    intro t ht
    simpa using List.all_eq_true.mp h t ht
  unfold decodeCmdline
  rw [splitOn_encodeCmdline toks h']
  simp

/-- Witness for C3 at a command line with an interior empty argument. -/
theorem c3_witness :
    ([['l', 's'], [], ['-', 'a']].all (fun t => !(t.contains nulChar)) = true) ∧
      decodeCmdline (encodeCmdline [['l', 's'], [], ['-', 'a']]) =
        [['l', 's'], [], ['-', 'a']] :=
  ⟨by decide, c3_cmdline_decode [['l', 's'], [], ['-', 'a']] (by decide)⟩

/-! ## C1: race-driven absence never escapes an enumeration pass -/

theorem find_processes_ne_notFound (table : ProcTable) :
    ∀ ps : List Nat, find_processes table ps ≠ Except.error ProcError.notFound
  | [] => by simp [find_processes]
  | p :: ps => by
    have ih := find_processes_ne_notFound table ps
    simp only [find_processes]
    cases hfp : from_pid table p with
    | ok proc =>
      cases hrec : find_processes table ps with
      | ok l => simp [Except.map]
      | error e =>
        cases e with
        | notFound => exact absurd hrec ih
        | decodeError => simp [Except.map]
        | typeError => simp [Except.map]
    | error e =>
      cases e with
      | notFound => exact ih
      | decodeError => simp
      | typeError => simp

/-- C1: during a multi-process enumeration pass every listed pid whose
process vanished before its primary record could be read is silently
skipped — the pass computes the same result with or without the vanished
pid — and the scan never surfaces the not-found error; an explicit
single-entity lookup by exact pid or by path does surface it. -/
theorem c1_enumeration_race_tolerance (table : ProcTable) (dir : ProcDir)
    (ps : List Nat) (path : String) (p : Nat)
    (h1 : table p = none) (h2 : dir path = none) :
    find_processes table ps ≠ Except.error ProcError.notFound ∧
      find_processes table (p :: ps) = find_processes table ps ∧
      from_pid table p = Except.error ProcError.notFound ∧
      from_path dir path = Except.error ProcError.notFound := by
  refine ⟨find_processes_ne_notFound table ps, ?_, ?_, ?_⟩
  · simp [find_processes, from_pid, h1]
  · simp [from_pid, h1]
  · simp [from_path, h2]

/-- A one-process table used to instantiate the enumeration theorems. -/
def sampleTable : ProcTable := fun n =>
  if n = 1 then some (mkStatLine "1".toList "init".toList "S 0 1".toList) else none

/-- An empty directory view: every handle path has vanished. -/
def emptyProcDir : ProcDir := fun _ => none

/-- Witness for C1: pid 5 is listed but vanished, pid 1 is present. -/
theorem c1_witness :
    sampleTable 5 = none ∧ emptyProcDir "/proc/5" = none ∧
      (find_processes sampleTable [1, 5] ≠ Except.error ProcError.notFound ∧
        find_processes sampleTable (5 :: [1, 5]) = find_processes sampleTable [1, 5] ∧
        from_pid sampleTable 5 = Except.error ProcError.notFound ∧
        from_path emptyProcDir "/proc/5" = Except.error ProcError.notFound) :=
  ⟨rfl, rfl, c1_enumeration_race_tolerance sampleTable emptyProcDir [1, 5] "/proc/5" 5 rfl rfl⟩

/-! ## C7: validation of the object type argument of the enumeration -/

theorem from_pid_ne_typeError (table : ProcTable) (p : Nat) :
    from_pid table p ≠ Except.error ProcError.typeError := by
  unfold from_pid
  cases table p with
  | none => simp
  | some raw =>
    unfold from_stat_record
    cases h : decodeComm raw <;> simp [h]

theorem generator_step_ne_typeError (t : ObjType) (table : ProcTable) :
    ∀ ps : List Nat, generator_step t table ps ≠ Except.error ProcError.typeError
  | [] => by simp [generator_step]
  | p :: ps => by
    have ih := generator_step_ne_typeError t table ps
    simp only [generator_step]
    cases hfp : from_pid table p with
    | ok proc => simp
    | error e =>
      cases e with
      | notFound => exact ih
      | decodeError => simp
      | typeError => exact absurd hfp (from_pid_ne_typeError table p)

/-- C7 counterexample: invoking the enumeration with an unsupported object
type does not fail at call time — the call succeeds and merely creates the
generator, so the claimed call-time type error is absent. -/
theorem c7_counterexample :
    find_processes_call ObjType.plainObject (fun _ => none) [] ≠
      Except.error ProcError.typeError := by
  simp [find_processes_call]

/-- C7 amended: the call itself always succeeds with a generator; the object
type argument is validated when the first element of the generator is
requested, and exactly the unsupported types then fail with the type-mismatch
error. -/
theorem c7_validation_on_first_request (t : ObjType) (table : ProcTable)
    (pids : List Nat) (h : is_supported_obj_type t = false) :
    find_processes_call t table pids = Except.ok ⟨t, table, pids⟩ ∧
      generator_next ⟨t, table, pids⟩ = Except.error ProcError.typeError ∧
      ∀ t' : ObjType, is_supported_obj_type t' = true →
        generator_next ⟨t', table, pids⟩ ≠ Except.error ProcError.typeError := by
  refine ⟨rfl, ?_, ?_⟩
  · simp [generator_next, h]
  · intro t' ht'
    simp only [generator_next, ht', if_pos]
    exact generator_step_ne_typeError t' table pids

/-- Witness for C7's amended statement at the unsupported plain object
type. -/
theorem c7_witness :
    is_supported_obj_type ObjType.plainObject = false ∧
      find_processes_call ObjType.plainObject sampleTable [1, 5] =
        Except.ok ⟨ObjType.plainObject, sampleTable, [1, 5]⟩ ∧
      generator_next ⟨ObjType.plainObject, sampleTable, [1, 5]⟩ =
        Except.error ProcError.typeError ∧
      generator_next ⟨ObjType.process, sampleTable, [1, 5]⟩ ≠
        Except.error ProcError.typeError :=
  ⟨rfl,
    (c7_validation_on_first_request ObjType.plainObject sampleTable [1, 5] rfl).1,
    (c7_validation_on_first_request ObjType.plainObject sampleTable [1, 5] rfl).2.1,
    (c7_validation_on_first_request ObjType.plainObject sampleTable [1, 5] rfl).2.2
      ObjType.process rfl⟩

/-! ## C4: tree construction is total on every enumeration result -/

theorem linkNodes_places_node (pids : List Nat) :
    ∀ (hs : List PNode) (h : PNode), h ∈ hs →
      (if h.ppid ∈ pids then h ∈ (linkNodes pids hs).childrenOf h.ppid
       else h ∈ (linkNodes pids hs).roots)
  | a :: t, h, hmem => by
    rcases List.mem_cons.mp hmem with heq | ht
    · subst heq
      by_cases hc : h.ppid ∈ pids
      · simp [linkNodes, hc]
      · simp [linkNodes, hc]
    · have ih := linkNodes_places_node pids t h ht
      by_cases hd : h.ppid ∈ pids
      · rw [if_pos hd] at ih ⊢
        by_cases hc : a.ppid ∈ pids
        · simp only [linkNodes, if_pos hc]
          by_cases hpp : h.ppid = a.ppid
          · simp only [if_pos hpp]
            exact List.mem_cons_of_mem a ih
          · simp only [if_neg hpp]
            exact ih
        · simp only [linkNodes, if_neg hc]
          exact ih
      · rw [if_neg hd] at ih ⊢
        by_cases hc : a.ppid ∈ pids
        · simp only [linkNodes, if_pos hc]
          exact ih
        · simp only [linkNodes, if_neg hc]
          exact List.mem_cons_of_mem a ih

/-- C4: tree construction never fails — it is a total function of the
enumeration result.  Every node whose ppid occurs among the enumerated pids
is placed in that parent's child collection, every other node becomes a root,
and the empty enumeration yields the valid zero-node tree. -/
theorem c4_tree_construction (hs : List PNode) (h : PNode) (hmem : h ∈ hs) :
    (if h.ppid ∈ hs.map (·.pid) then
        h ∈ (get_process_tree hs).childrenOf h.ppid
      else h ∈ (get_process_tree hs).roots) ∧
      get_process_tree ([] : List PNode) = ⟨[], fun _ => []⟩ :=
  ⟨linkNodes_places_node (hs.map (·.pid)) hs h hmem, rfl⟩

/-- Witness for C4: a forest with a root whose parent pid 0 is absent, a
linked child, and an orphan whose parent exited. -/
theorem c4_witness :
    (⟨2, 1⟩ : PNode) ∈ [(⟨1, 0⟩ : PNode), ⟨2, 1⟩, ⟨7, 99⟩] ∧
      (if (1 : Nat) ∈ [(⟨1, 0⟩ : PNode), ⟨2, 1⟩, ⟨7, 99⟩].map (·.pid) then
          (⟨2, 1⟩ : PNode) ∈
            (get_process_tree [(⟨1, 0⟩ : PNode), ⟨2, 1⟩, ⟨7, 99⟩]).childrenOf 1
        else (⟨2, 1⟩ : PNode) ∈
          (get_process_tree [(⟨1, 0⟩ : PNode), ⟨2, 1⟩, ⟨7, 99⟩]).roots) ∧
      get_process_tree ([] : List PNode) = ⟨[], fun _ => []⟩ :=
  ⟨by decide,
    (c4_tree_construction [(⟨1, 0⟩ : PNode), ⟨2, 1⟩, ⟨7, 99⟩] ⟨2, 1⟩ (by decide)).1,
    (c4_tree_construction [(⟨1, 0⟩ : PNode), ⟨2, 1⟩, ⟨7, 99⟩] ⟨2, 1⟩ (by decide)).2⟩

/-! ## C5: signal operations are benign no-ops on vanished processes -/

theorem send_signal_ok_iff (k : Kernel) (pid sig : Nat) :
    send_signal k pid sig = Except.ok () ↔ k pid sig ≠ KillOutcome.otherFailure := by
  cases h : k pid sig <;> simp [send_signal, h]

theorem send_signal_error_iff (k : Kernel) (pid sig : Nat) :
    send_signal k pid sig = Except.error SigErr.signalError ↔
      k pid sig = KillOutcome.otherFailure := by
  cases h : k pid sig <;> simp [send_signal, h]

/-- C5: for each of the four signal operations, the operation succeeds as a
benign no-op exactly when the OS-level kill call did not fail for a reason
other than the process being gone (delivery and an already-exited target both
count as success), and a signal error is surfaced exactly when the kill call
failed for another reason such as insufficient privilege. -/
theorem c5_signal_error_semantics (k : Kernel) (pid : Nat) :
    ((sigStop k pid = Except.ok () ↔ k pid SIGSTOP ≠ KillOutcome.otherFailure) ∧
      (sigStop k pid = Except.error SigErr.signalError ↔
        k pid SIGSTOP = KillOutcome.otherFailure)) ∧
    ((sigCont k pid = Except.ok () ↔ k pid SIGCONT ≠ KillOutcome.otherFailure) ∧
      (sigCont k pid = Except.error SigErr.signalError ↔
        k pid SIGCONT = KillOutcome.otherFailure)) ∧
    ((sigTerminate k pid = Except.ok () ↔ k pid SIGTERM ≠ KillOutcome.otherFailure) ∧
      (sigTerminate k pid = Except.error SigErr.signalError ↔
        k pid SIGTERM = KillOutcome.otherFailure)) ∧
    ((sigKill k pid = Except.ok () ↔ k pid SIGKILL ≠ KillOutcome.otherFailure) ∧
      (sigKill k pid = Except.error SigErr.signalError ↔
        k pid SIGKILL = KillOutcome.otherFailure)) :=
  ⟨⟨send_signal_ok_iff k pid SIGSTOP, send_signal_error_iff k pid SIGSTOP⟩,
    ⟨send_signal_ok_iff k pid SIGCONT, send_signal_error_iff k pid SIGCONT⟩,
    ⟨send_signal_ok_iff k pid SIGTERM, send_signal_error_iff k pid SIGTERM⟩,
    ⟨send_signal_ok_iff k pid SIGKILL, send_signal_error_iff k pid SIGKILL⟩⟩

/-! ## C6: StatsList aggregation -/

/-- C6: over the sample `[0,1,1,2,3,5,8,13,21,34]` the aggregation yields
minimum 0, maximum 34, average 8.8 and median 4; over `[0,1,1,2,3,5,8,13,21]`
it yields median 3; and the average and the median of an empty sample set
fail with the defined value error instead of returning a number. -/
theorem c6_stats_aggregation :
    statsMin [0, 1, 1, 2, 3, 5, 8, 13, 21, 34] = Except.ok 0 ∧
      statsMax [0, 1, 1, 2, 3, 5, 8, 13, 21, 34] = Except.ok 34 ∧
      statsAverage [0, 1, 1, 2, 3, 5, 8, 13, 21, 34] = Except.ok (44 / 5) ∧
      statsMedian [0, 1, 1, 2, 3, 5, 8, 13, 21, 34] = Except.ok 4 ∧
      statsMedian [0, 1, 1, 2, 3, 5, 8, 13, 21] = Except.ok 3 ∧
      statsAverage ([] : List ℚ) = Except.error StatsErr.valueError ∧
      statsMedian ([] : List ℚ) = Except.error StatsErr.valueError := by
  refine ⟨?_, ?_, ?_, ?_, ?_, rfl, rfl⟩ <;>
    norm_num [statsMin, statsMax, statsAverage, statsMedian,
      List.insertionSort, List.orderedInsert, min_def, max_def]

/-! ## C8: `start_gpg_agent` ignores its timeout parameter -/

/-- C8: the result of `start_gpg_agent` is independent of the `timeout`
argument — any two argument values behave identically over the same external
environment — because the waiting loop's bound is the module constant
`LAUNCH_TIMEOUT`: even an agent found at exactly `LAUNCH_TIMEOUT` elapsed
seconds is ignored, whatever `timeout` was passed. -/
theorem c8_timeout_argument_ignored (t1 t2 : Nat) (trace : AgentTrace) :
    start_gpg_agent t1 trace = start_gpg_agent t2 trace ∧
      start_gpg_agent t1 ((LAUNCH_TIMEOUT, some "/tmp/S.gpg-agent:2407:1") :: trace) =
        none := by
  constructor
  · rfl
  · simp [start_gpg_agent, agent_wait_loop, LAUNCH_TIMEOUT]

/-! ## C10: `validate_unix_socket` is total and exception-free -/

/-- C10: `validate_unix_socket` returns a boolean for every pathname and
filesystem state — a raised stat exception of any kind is absorbed — and it
returns `true` exactly when the stat call succeeds, the resulting mode
denotes a UNIX socket, and the path is writable; it returns `false` in every
other case. -/
theorem c10_validate_unix_socket_total (os : OsEnv) (pathname : String) :
    (validate_unix_socket os pathname = true ↔
      ∃ md, os.stat pathname = Except.ok md ∧ S_ISSOCK md.st_mode = true ∧
        os.access_w pathname = true) ∧
    (validate_unix_socket os pathname = false ↔
      ¬∃ md, os.stat pathname = Except.ok md ∧ S_ISSOCK md.st_mode = true ∧
        os.access_w pathname = true) := by
  have hmain : validate_unix_socket os pathname = true ↔
      ∃ md, os.stat pathname = Except.ok md ∧ S_ISSOCK md.st_mode = true ∧
        os.access_w pathname = true := by
    unfold validate_unix_socket
    cases hstat : os.stat pathname with
    | error e => simp [hstat]
    | ok md =>
      by_cases hsock : S_ISSOCK md.st_mode = true
      · simp [hstat, hsock]
      · simp [hstat, hsock]
  refine ⟨hmain, ?_⟩
  rw [← hmain]
  cases hval : validate_unix_socket os pathname <;> simp

/-! ## C9: environment variable scraping -/

theorem lookup_dict_set (k : String) :
    ∀ (m : List (String × String)) (k' v : String),
      List.lookup k (dict_set m k' v) =
        if k' == k then some v else List.lookup k m
  | [], k', v => by
    by_cases hk : k' = k
    · simp [dict_set, List.lookup, hk]
    · have h1 : (k' == k) = false := beq_eq_false_iff_ne.mpr hk
      have h2 : (k == k') = false := beq_eq_false_iff_ne.mpr (Ne.symm hk)
      simp [dict_set, List.lookup, h1, h2]
  | (a, b) :: rest, k', v => by
    by_cases hak : a = k'
    · by_cases hk : k' = k
      · simp [dict_set, List.lookup, hak, hk]
      · have h1 : (k' == k) = false := beq_eq_false_iff_ne.mpr hk
        have h2 : (k == k') = false := beq_eq_false_iff_ne.mpr (Ne.symm hk)
        simp [dict_set, List.lookup, hak, h1, h2]
    · have ih := lookup_dict_set k rest k' v
      have hb : (a == k') = false := beq_eq_false_iff_ne.mpr hak
      by_cases hka : k = a
      · have h1 : (k' == k) = false :=
          beq_eq_false_iff_ne.mpr fun hc => hak (hc.trans hka).symm
        have h3 : ¬(k' = a) := fun hc => hak hc.symm
        simp [dict_set, List.lookup, hb, hka, h1, h3]
      · have h2 : (k == a) = false := beq_eq_false_iff_ne.mpr hka
        simp [dict_set, List.lookup, hb, h2, ih]

theorem lookup_foldl_env (names : List String) (k : String) :
    ∀ (l m : List (String × String)),
      List.lookup k (l.foldl (env_step names) m) =
        ((l.reverse.find? (env_match names k)).map (·.2)).or (List.lookup k m)
  | [], m => by simp
  | kv :: t, m => by
    have ih := lookup_foldl_env names k t (env_step names m kv)
    show List.lookup k (t.foldl (env_step names) (env_step names m kv)) = _
    rw [ih]
    have happ : (kv :: t).reverse.find? (env_match names k) =
        ((t.reverse.find? (env_match names k)).or ([kv].find? (env_match names k))) := by
      rw [List.reverse_cons, List.find?_append]
    rw [happ]
    cases hf : t.reverse.find? (env_match names k) with
    | some x => simp
    | none =>
      simp only [Option.none_or, Option.map_none]
      by_cases hc1 : kv.1 ∈ names <;>
        cases hc2 : kv.2 != "" <;>
          cases hc3 : kv.1 == k <;>
            simp [env_step, env_match, env_good, List.find?, hc1, hc2, hc3,
              lookup_dict_set k m kv.1 kv.2]

theorem foldl_foldl_flatten {α β : Type} (f : β → α → β) :
    ∀ (ls : List (List α)) (m : β),
      ls.foldl (fun acc l => l.foldl f acc) m = ls.flatten.foldl f m
  | [], m => rfl
  | l :: ls, m => by
    show List.foldl _ (l.foldl f m) ls = _
    rw [foldl_foldl_flatten f ls (l.foldl f m), List.flatten_cons, List.foldl_append]

theorem dict_set_all_good (names : List String) :
    ∀ (m : List (String × String)) (k v : String),
      m.all (env_good names) = true → env_good names (k, v) = true →
        (dict_set m k v).all (env_good names) = true
  | [], k, v => by intro _ hg; simpa [dict_set] using hg
  | (a, b) :: rest, k, v => by
    intro hall hg
    have ih := dict_set_all_good names rest k v
    rw [List.all_cons, Bool.and_eq_true] at hall
    obtain ⟨hab, hrest⟩ := hall
    by_cases h : a = k <;>
      simp [dict_set, h, hg, hab, hrest, ih hrest hg]

theorem foldl_env_all_good (names : List String) :
    ∀ (l m : List (String × String)),
      m.all (env_good names) = true →
        (l.foldl (env_step names) m).all (env_good names) = true
  | [], m => fun hm => hm
  | kv :: t, m => by
    intro hm
    show (t.foldl (env_step names) (env_step names m kv)).all (env_good names) = true
    refine foldl_env_all_good names t (env_step names m kv) ?_
    unfold env_step
    cases hc : env_good names kv with
    | true =>
      rw [show (names.contains kv.1 && kv.2 != "") = true from hc, if_pos rfl]
      exact dict_set_all_good names m kv.1 kv.2 hm hc
    | false =>
      rw [show (names.contains kv.1 && kv.2 != "") = false from hc]
      simpa using hm

/-- C9: the dictionary produced by `find_environment_variables` contains only
requested names mapped to nonempty values, and the value it retains for any
variable `k` is exactly the value of the last recorded occurrence of `k` over
the enumerated processes — later processes overwrite earlier ones. -/
theorem c9_env_variables_scrape (names : List String)
    (procs : List (List (String × String))) (k : String) :
    (find_environment_variables names procs).all (env_good names) = true ∧
      List.lookup k (find_environment_variables names procs) =
        last_retained names procs k := by
  constructor
  · unfold find_environment_variables
    rw [foldl_foldl_flatten]
    exact foldl_env_all_good names procs.flatten [] rfl
  · unfold find_environment_variables last_retained
    rw [foldl_foldl_flatten, lookup_foldl_env]
    simp

end ProcSpec
